import Mathlib

/-!
# Verification of the SAR recommendation core (beTRD-recs)

The repository's notebooks configure and drive a SAR (Simple Algorithm for
Recommendation) model: they build an interaction table (user, item, rating,
timestamp), fit the model (user-affinity matrix, item co-occurrence matrix,
item-similarity matrix under a configurable metric) and call
`recommend_k_items` for top-k recommendations with seen-item removal.
The SAR core itself is not among the repository's source files (the notebooks
only call it), so the model below is built from the specification's
description of each component: affinity aggregation with optional exponential
time decay and L2 row normalization, user-counting co-occurrence, the four
similarity metrics (count, cosine, jaccard, lift) with zero-substitution at
zero marginals, and scoring `R = A_q · S` followed by seen-item filtering and
top-k selection with descending-score / ascending-item-index ordering.

Ratings and timestamps are integers, as everywhere in this pipeline
(`betPlaced ∈ {0,1}` after `astype(int)`, ratings 1..4, epoch seconds); the
derived similarity, normalization and decay values live in `ℝ`.
-/

namespace SAR

/-- Modelled from the spec: a single interaction record (user, item, rating,
timestamp).  The notebooks remap opaque ids to dense indices; here users and
items are already dense `Nat` indices. -/
structure Interaction where
  user : Nat
  item : Nat
  rating : ℤ
  ts : ℤ
deriving DecidableEq, Repr

/-- Distinct users appearing in an interaction list, in first-seen order. -/
def usersOf (rows : List Interaction) : List Nat :=
  (rows.map Interaction.user).dedup

/-- Distinct items appearing in an interaction list, in first-seen order. -/
def itemsOf (rows : List Interaction) : List Nat :=
  (rows.map Interaction.item).dedup

/-- Modelled from the spec: the user-affinity entry `A[u][i]` without time
decay — interactions are grouped by (user, item) pair and their ratings are
summed. -/
def affinity (rows : List Interaction) (u i : Nat) : ℤ :=
  ((rows.filter (fun r => r.user == u && r.item == i)).map Interaction.rating).sum

/-- Modelled from the spec: the decay reference time `t_ref` is the maximum
timestamp observed in the training set (per dataset, not per user). -/
def tRef (rows : List Interaction) : ℤ :=
  ((rows.map Interaction.ts).maximum).unbot' 0

/-- Modelled from the spec: the time-decayed user-affinity entry.  Each
interaction contributes `rating * 2 ^ (-(t_ref - t) / T)` where `T` is the
decay (half-life) coefficient in the timestamps' time unit, and contributions
for the same (user, item) pair are summed. -/
noncomputable def decayedAffinity (rows : List Interaction) (T : ℚ) (u i : Nat) : ℝ :=
  ((rows.filter (fun r => r.user == u && r.item == i)).map
    (fun r => (r.rating : ℝ) *
      (2 : ℝ) ^ ((-(((tRef rows - r.ts : ℤ) : ℚ) / T) : ℚ) : ℝ))).sum

/-- Modelled from the spec: the co-occurrence entry `C[i][j]` counts the users
who interacted with both item `i` and item `j` — the affinity matrix is
binarized by the predicate `A[u][i] > 0` before counting, so co-occurrence
counts users, not affinity mass. -/
def cooccur (rows : List Interaction) (i j : Nat) : Nat :=
  ((usersOf rows).filter
    (fun u => decide (0 < affinity rows u i) && decide (0 < affinity rows u j))).length

/-- The four similarity metrics of the spec. -/
inductive SimMetric where
  | count
  | cosine
  | jaccard
  | lift
deriving DecidableEq, Repr

/-- Modelled from the spec: the item-similarity entry `S[i][j]` under the
configured metric, with marginal counts `d_i = C[i][i]`, `d_j = C[j][j]`:
count is raw co-occurrence; cosine is `C[i][j]/sqrt(d_i*d_j)` (0 when a
marginal is 0); jaccard is `C[i][j]/(d_i+d_j-C[i][j])` (0 when the denominator
is 0); lift is `C[i][j]/(d_i*d_j)` (0 when a marginal is 0). -/
noncomputable def similarity (m : SimMetric) (rows : List Interaction) (i j : Nat) : ℝ :=
  let c : ℝ := (cooccur rows i j : ℝ)
  let di : ℝ := (cooccur rows i i : ℝ)
  let dj : ℝ := (cooccur rows j j : ℝ)
  match m with
  | SimMetric.count => c
  | SimMetric.cosine => if di = 0 ∨ dj = 0 then 0 else c / Real.sqrt (di * dj)
  | SimMetric.jaccard => if di + dj - c = 0 then 0 else c / (di + dj - c)
  | SimMetric.lift => if di = 0 ∨ dj = 0 then 0 else c / (di * dj)

/-- The squared L2 norm of user `u`'s affinity row (sum over the item
catalog of squared affinities). -/
def l2normSq (rows : List Interaction) (u : Nat) : ℤ :=
  ((itemsOf rows).map (fun i => (affinity rows u i) ^ 2)).sum

/-- Modelled from the spec: the L2-row-normalized affinity entry — after
aggregation every row is divided by its L2 norm, and a row with zero norm is
left as an all-zero row by explicit zero-substitution (no division-by-zero
fault). -/
noncomputable def normAffinity (rows : List Interaction) (u i : Nat) : ℝ :=
  if l2normSq rows u = 0 then 0
  else (affinity rows u i : ℝ) / Real.sqrt ((l2normSq rows u : ℤ) : ℝ)

section Scoring

variable {K : Type} [LinearOrderedCommRing K]

/-- Modelled from the spec: the raw recommendation score
`R[u][i] = (A_q · S)[u][i]`, the query affinity row of `u` multiplied by
column `i` of the item-similarity matrix over the item catalog. -/
def score (q : List Interaction) (S : Nat → Nat → K) (items : List Nat) (u i : Nat) : K :=
  (items.map (fun j => ((affinity q u j : ℤ) : K) * S j i)).sum

/-- Modelled from the spec: the candidate items for user `u` — with
`removeSeen` set, every item whose query affinity `A_q[u][i]` is positive
(already interacted) is excluded from candidacy. -/
def eligibleItems (q : List Interaction) (items : List Nat) (u : Nat)
    (removeSeen : Bool) : List Nat :=
  if removeSeen then items.filter (fun i => !(decide (0 < affinity q u i))) else items

/-- Modelled from the spec: the ranking order on items — descending score,
with ties broken by ascending item index for determinism. -/
def rankRel (R : Nat → K) (i j : Nat) : Prop :=
  R j < R i ∨ (R i = R j ∧ i ≤ j)

instance rankRelDecidable (R : Nat → K) : DecidableRel (rankRel R) := by
  intro i j
  unfold rankRel
  infer_instance

/-- Modelled from the spec: the top-k recommended items for user `u` — the
eligible items sorted by the ranking order, truncated to the first `k`. -/
def topKItems (q : List Interaction) (S : Nat → Nat → K) (items : List Nat)
    (u k : Nat) (removeSeen : Bool) : List Nat :=
  (List.insertionSort (rankRel (score q S items u))
    (eligibleItems q items u removeSeen)).take k

/-- Modelled from the spec: `recommend` emits a flat ranked list of
(user, item, score) tuples, per query user in turn, k entries per user (fewer
if fewer eligible items remain). -/
def recommend (q : List Interaction) (S : Nat → Nat → K) (items : List Nat)
    (k : Nat) (removeSeen : Bool) : List (Nat × Nat × K) :=
  (usersOf q).flatMap
    (fun u => (topKItems q S items u k removeSeen).map
      (fun i => (u, i, score q S items u i)))

end Scoring

/-! ## Helper lemmas -/

theorem cooccur_symm (rows : List Interaction) (i j : Nat) :
    cooccur rows i j = cooccur rows j i := by
  unfold cooccur
  congr 1
  apply List.filter_congr
  intro u _
  rw [Bool.and_comm]

theorem cooccur_nonneg_cast (rows : List Interaction) (i j : Nat) :
    (0 : ℝ) ≤ (cooccur rows i j : ℝ) := by positivity

theorem l2normSq_nonneg (rows : List Interaction) (u : Nat) :
    0 ≤ l2normSq rows u := by
  apply List.sum_nonneg
  intro x hx
  rw [List.mem_map] at hx
  obtain ⟨i, _, rfl⟩ := hx
  positivity

section ScoringLemmas

variable {K : Type} [LinearOrderedCommRing K]

instance rankRelTotal (R : Nat → K) : IsTotal Nat (rankRel R) where
  total i j := by
    rcases lt_trichotomy (R i) (R j) with h | h | h
    · exact Or.inr (Or.inl h)
    · rcases Nat.le_total i j with hij | hij
      · exact Or.inl (Or.inr ⟨h, hij⟩)
      · exact Or.inr (Or.inr ⟨h.symm, hij⟩)
    · exact Or.inl (Or.inl h)

instance rankRelTrans (R : Nat → K) : IsTrans Nat (rankRel R) where
  trans i j k hij hjk := by
    rcases hij with h1 | ⟨e1, l1⟩ <;> rcases hjk with h2 | ⟨e2, l2⟩
    · exact Or.inl (h2.trans h1)
    · exact Or.inl (e2 ▸ h1)
    · exact Or.inl (h2.trans_eq e1.symm)
    · exact Or.inr ⟨e1.trans e2, l1.trans l2⟩

instance rankRelAntisymm (R : Nat → K) : IsAntisymm Nat (rankRel R) where
  antisymm i j hij hji := by
    rcases hij with h1 | ⟨e1, l1⟩
    · rcases hji with h2 | ⟨e2, l2⟩
      · exact absurd (h1.trans h2) (lt_irrefl _)
      · exact absurd h1 (e2 ▸ lt_irrefl _)
    · rcases hji with h2 | ⟨e2, l2⟩
      · exact absurd h2 (e1 ▸ lt_irrefl _)
      · exact Nat.le_antisymm l1 l2

theorem rankRel_score_le (R : Nat → K) {i j : Nat} (h : rankRel R i j) : R j ≤ R i := by
  rcases h with h | ⟨h, _⟩
  · exact h.le
  · exact h.ge

/-- The sorted candidate list of `topKItems` is pairwise rank-ordered. -/
theorem topKItems_pairwise (q : List Interaction) (S : Nat → Nat → K)
    (items : List Nat) (u k : Nat) (removeSeen : Bool) :
    (topKItems q S items u k removeSeen).Pairwise (rankRel (score q S items u)) := by
  unfold topKItems
  exact (List.sorted_insertionSort _ _).sublist (List.take_sublist _ _)

theorem mem_topKItems {q : List Interaction} {S : Nat → Nat → K}
    {items : List Nat} {u k : Nat} {removeSeen : Bool} {i : Nat}
    (h : i ∈ topKItems q S items u k removeSeen) :
    i ∈ eligibleItems q items u removeSeen := by
  unfold topKItems at h
  exact (List.mem_insertionSort _).mp (List.mem_of_mem_take h)

theorem mem_recommend {q : List Interaction} {S : Nat → Nat → K}
    {items : List Nat} {k : Nat} {removeSeen : Bool} {u i : Nat} {s : K}
    (h : (u, i, s) ∈ recommend q S items k removeSeen) :
    u ∈ usersOf q ∧ i ∈ topKItems q S items u k removeSeen ∧
      s = score q S items u i := by
  unfold recommend at h
  rw [List.mem_flatMap] at h
  obtain ⟨v, hv, hmem⟩ := h
  rw [List.mem_map] at hmem
  obtain ⟨i', hi', heq⟩ := hmem
  rw [Prod.mk.injEq, Prod.mk.injEq] at heq
  obtain ⟨h1, h2, h3⟩ := heq
  subst h1
  subst h2
  subst h3
  exact ⟨hv, hi', rfl⟩

theorem mem_eligible_not_seen {q : List Interaction} {items : List Nat}
    {u i : Nat} (h : i ∈ eligibleItems q items u true) :
    ¬ 0 < affinity q u i := by
  unfold eligibleItems at h
  rw [if_pos rfl, List.mem_filter] at h
  simpa using h.2

end ScoringLemmas

/-- Filtering a user-tagged flat list down to one user recovers that user's
block, when the outer user list has no duplicates. -/
theorem filter_user_flatMap {K : Type} (F : Nat → List (Nat × Nat × K))
    (hF : ∀ v : Nat, ∀ p ∈ F v, p.fst = v)
    (L : List Nat) (hnd : L.Nodup) (u : Nat) (hu : u ∈ L) :
    (L.flatMap F).filter (fun p => p.fst == u) = F u := by
  induction L with
  | nil => cases hu
  | cons v L ih =>
      rw [List.flatMap_cons, List.filter_append]
      rcases List.mem_cons.mp hu with rfl | hu'
      · have h1 : (F u).filter (fun p => p.fst == u) = F u := by
          rw [List.filter_eq_self]
          intro p hp
          simpa using hF u p hp
        have h2 : (L.flatMap F).filter (fun p => p.fst == u) = [] := by
          rw [List.filter_eq_nil_iff]
          intro p hp
          rw [List.mem_flatMap] at hp
          obtain ⟨w, hw, hpw⟩ := hp
          have : p.fst = w := hF w p hpw
          have hne : w ≠ u := fun hwu => (List.nodup_cons.mp hnd).1 (hwu ▸ hw)
          simp [this, hne]
        rw [h1, h2, List.append_nil]
      · have hvu : v ≠ u := by
          intro hvu
          exact (List.nodup_cons.mp hnd).1 (hvu ▸ hu')
        have h1 : (F v).filter (fun p => p.fst == u) = [] := by
          rw [List.filter_eq_nil_iff]
          intro p hp
          have : p.fst = v := hF v p hp
          simp [this, hvu]
        rw [h1, List.nil_append]
        exact ih (List.nodup_cons.mp hnd).2 hu'

/-- The entries `recommend` emits for a query user `u` are exactly user `u`'s
ranked top-k block. -/
theorem recommend_filter_user {K : Type} [LinearOrderedCommRing K]
    (q : List Interaction) (S : Nat → Nat → K) (items : List Nat)
    (k : Nat) (removeSeen : Bool) {u : Nat} (hu : u ∈ usersOf q) :
    (recommend q S items k removeSeen).filter (fun p => p.fst == u)
      = (topKItems q S items u k removeSeen).map
          (fun i => (u, i, score q S items u i)) := by
  unfold recommend
  refine filter_user_flatMap _ ?_ _ (List.nodup_dedup _) u hu
  intro v p hp
  rw [List.mem_map] at hp
  obtain ⟨i, _, rfl⟩ := hp
  rfl

/-- In a list of non-negative integers summing to zero, every element is
zero. -/
theorem sum_nonneg_eq_zero {l : List ℤ} (h : ∀ x ∈ l, 0 ≤ x) (h0 : l.sum = 0) :
    ∀ x ∈ l, x = 0 := by
  induction l with
  | nil => simp
  | cons a l ih =>
      rw [List.sum_cons] at h0
      have ha : 0 ≤ a := h a (List.mem_cons_self a l)
      have hl : 0 ≤ l.sum :=
        List.sum_nonneg (fun x hx => h x (List.mem_cons_of_mem _ hx))
      have ha0 : a = 0 := by omega
      have hl0 : l.sum = 0 := by omega
      intro x hx
      rcases List.mem_cons.mp hx with rfl | hx'
      · exact ha0
      · exact ih (fun y hy => h y (List.mem_cons_of_mem _ hy)) hl0 x hx'

/-- The cast of the squared row norm, as the sum of squared cast affinities. -/
theorem l2normSq_cast (rows : List Interaction) (u : Nat) :
    ((itemsOf rows).map (fun i => ((affinity rows u i : ℤ) : ℝ) ^ 2)).sum
      = ((l2normSq rows u : ℤ) : ℝ) := by
  unfold l2normSq
  rw [Int.cast_list_sum, List.map_map]
  refine congrArg List.sum (List.map_congr_left ?_)
  intro i _
  simp

/-! ## Claims -/

/-- C1 (amended): for every fitted model (any similarity matrix `S` and item
catalog) and every query set, `recommend` with `remove_seen = true` returns no
(user, item) pair whose aggregated query affinity `A_q[u][i]` is positive —
pairs whose query interactions all have rating 0 aggregate to affinity 0 and
are not treated as seen. -/
theorem c1_remove_seen {K : Type} [LinearOrderedCommRing K]
    (q : List Interaction) (S : Nat → Nat → K) (items : List Nat) (k : Nat)
    (u i : Nat) (s : K) (h : (u, i, s) ∈ recommend q S items k true) :
    ¬ 0 < affinity q u i :=
  mem_eligible_not_seen (mem_topKItems (mem_recommend h).2.1)

/-- C1 witness: concrete instance of `c1_remove_seen` — user 1's returned
item 2 has query affinity 0 (its only query interaction has rating 0). -/
theorem c1_remove_seen_witness :
    ¬ 0 < affinity [(⟨1, 1, 1, 0⟩ : Interaction), ⟨1, 2, 0, 0⟩] 1 2 :=
  c1_remove_seen [⟨1, 1, 1, 0⟩, ⟨1, 2, 0, 0⟩] (fun _ _ => (1 : ℤ)) [1, 2] 2 1 2 1
    (by decide)

/-- C1 counterexample: as literally stated the claim is false — with the
cosine model fitted on `[(user 2, item 1, rating 1)]`, querying with the
single interaction (user 1, item 1, rating 0) and `remove_seen = true`
returns the pair (1, 1) even though user 1's query interactions contain an
interaction with item 1 (its rating-0 interaction gives affinity 0, so the
pair is not excluded). -/
theorem c1_counterexample :
    (∃ p ∈ recommend [(⟨1, 1, 0, 0⟩ : Interaction)]
        (similarity SimMetric.cosine [⟨2, 1, 1, 0⟩]) [1] 1 true,
      p.fst = 1 ∧ p.snd.fst = 1) ∧
    (∃ r ∈ [(⟨1, 1, 0, 0⟩ : Interaction)], r.user = 1 ∧ r.item = 1) := by
  constructor
  · have hred : recommend [(⟨1, 1, 0, 0⟩ : Interaction)]
        (similarity SimMetric.cosine [⟨2, 1, 1, 0⟩]) [1] 1 true
        = [(1, 1, score [(⟨1, 1, 0, 0⟩ : Interaction)]
            (similarity SimMetric.cosine [⟨2, 1, 1, 0⟩]) [1] 1 1)] := rfl
    rw [hred]
    exact ⟨_, List.mem_singleton_self _, rfl, rfl⟩
  · exact ⟨_, List.mem_singleton_self _, rfl, rfl⟩

/-- C2: the cosine scenario — on the training set
{(u1,i1,1), (u1,i2,1), (u2,i1,1)} with no decay and no normalization the
co-occurrence matrix is [[2,1],[1,1]], the cosine similarity
`S[i1][i2] = C[i1][i2]/sqrt(d_1*d_2)` is `1/sqrt 2`, and recommending for u2
(query = u2's interaction with i1) with `top_k = 1` and `remove_seen = true`
returns i2 with score `A[u2][i1]*S[i1][i2] = 1/sqrt 2 ≈ 0.707`. -/
theorem c2_cosine_scenario :
    cooccur [(⟨1, 1, 1, 0⟩ : Interaction), ⟨1, 2, 1, 0⟩, ⟨2, 1, 1, 0⟩] 1 1 = 2 ∧
    cooccur [(⟨1, 1, 1, 0⟩ : Interaction), ⟨1, 2, 1, 0⟩, ⟨2, 1, 1, 0⟩] 1 2 = 1 ∧
    cooccur [(⟨1, 1, 1, 0⟩ : Interaction), ⟨1, 2, 1, 0⟩, ⟨2, 1, 1, 0⟩] 2 2 = 1 ∧
    similarity SimMetric.cosine
      [(⟨1, 1, 1, 0⟩ : Interaction), ⟨1, 2, 1, 0⟩, ⟨2, 1, 1, 0⟩] 1 2
      = 1 / Real.sqrt 2 ∧
    recommend [(⟨2, 1, 1, 0⟩ : Interaction)]
      (similarity SimMetric.cosine
        [(⟨1, 1, 1, 0⟩ : Interaction), ⟨1, 2, 1, 0⟩, ⟨2, 1, 1, 0⟩])
      [1, 2] 1 true
      = [(2, 2, 1 / Real.sqrt 2)] := by
  have h11 : cooccur
      [(⟨1, 1, 1, 0⟩ : Interaction), ⟨1, 2, 1, 0⟩, ⟨2, 1, 1, 0⟩] 1 1 = 2 := by decide
  have h12 : cooccur
      [(⟨1, 1, 1, 0⟩ : Interaction), ⟨1, 2, 1, 0⟩, ⟨2, 1, 1, 0⟩] 1 2 = 1 := by decide
  have h22 : cooccur
      [(⟨1, 1, 1, 0⟩ : Interaction), ⟨1, 2, 1, 0⟩, ⟨2, 1, 1, 0⟩] 2 2 = 1 := by decide
  have hsim : similarity SimMetric.cosine
      [(⟨1, 1, 1, 0⟩ : Interaction), ⟨1, 2, 1, 0⟩, ⟨2, 1, 1, 0⟩] 1 2
      = 1 / Real.sqrt 2 := by
    simp only [similarity, h11, h12, h22]
    norm_num
  refine ⟨h11, h12, h22, hsim, ?_⟩
  have hred : recommend [(⟨2, 1, 1, 0⟩ : Interaction)]
      (similarity SimMetric.cosine
        [(⟨1, 1, 1, 0⟩ : Interaction), ⟨1, 2, 1, 0⟩, ⟨2, 1, 1, 0⟩])
      [1, 2] 1 true
      = [(2, 2, score [(⟨2, 1, 1, 0⟩ : Interaction)]
          (similarity SimMetric.cosine
            [(⟨1, 1, 1, 0⟩ : Interaction), ⟨1, 2, 1, 0⟩, ⟨2, 1, 1, 0⟩])
          [1, 2] 2 2)] := rfl
  rw [hred]
  have ha1 : affinity [(⟨2, 1, 1, 0⟩ : Interaction)] 2 1 = 1 := by decide
  have ha2 : affinity [(⟨2, 1, 1, 0⟩ : Interaction)] 2 2 = 0 := by decide
  have hscore : score [(⟨2, 1, 1, 0⟩ : Interaction)]
      (similarity SimMetric.cosine
        [(⟨1, 1, 1, 0⟩ : Interaction), ⟨1, 2, 1, 0⟩, ⟨2, 1, 1, 0⟩])
      [1, 2] 2 2 = 1 / Real.sqrt 2 := by
    simp only [score, List.map_cons, List.map_nil, List.sum_cons, List.sum_nil,
      ha1, ha2, hsim]
    norm_num
  rw [hscore]

/-- C3: the time-decay scenario — with decay coefficient 30 (same unit as
the timestamps) and two rating-1 interactions on the same (user, item) pair
60 time units apart, the later at the reference time `t_ref = 60`, the later
contributes `2^0 = 1`, the earlier `2^(-60/30) = 0.25`, and the aggregated
affinity is 1.25 before normalization. -/
theorem c3_time_decay :
    tRef [(⟨1, 1, 1, 60⟩ : Interaction), ⟨1, 1, 1, 0⟩] = 60 ∧
    decayedAffinity [(⟨1, 1, 1, 60⟩ : Interaction), ⟨1, 1, 1, 0⟩] 30 1 1 = 5 / 4 := by
  have ht : tRef [(⟨1, 1, 1, 60⟩ : Interaction), ⟨1, 1, 1, 0⟩] = 60 := by decide
  refine ⟨ht, ?_⟩
  simp only [decayedAffinity, ht, List.filter, List.map, List.sum_cons, List.sum_nil]
  norm_num

/-- C4: with normalization enabled, every affinity row is divided by its L2
norm — multiplying a normalized entry by the row norm recovers the raw
affinity, and a nonzero-norm row has unit L2 norm after normalization — and
a zero-norm row is left all-zero (zero-substitution, no division fault). -/
theorem c4_row_normalization (rows : List Interaction) (u : Nat) :
    (l2normSq rows u = 0 → ∀ i : Nat, normAffinity rows u i = 0) ∧
    (l2normSq rows u ≠ 0 →
      (∀ i : Nat, normAffinity rows u i * Real.sqrt ((l2normSq rows u : ℤ) : ℝ)
        = (affinity rows u i : ℝ)) ∧
      ((itemsOf rows).map (fun i => (normAffinity rows u i) ^ 2)).sum = 1) := by
  constructor
  · intro h0 i
    unfold normAffinity
    rw [if_pos h0]
  · intro hne
    have hQpos : (0 : ℝ) < ((l2normSq rows u : ℤ) : ℝ) := by
      have h1 : (0 : ℤ) < l2normSq rows u :=
        lt_of_le_of_ne (l2normSq_nonneg rows u) (Ne.symm hne)
      exact_mod_cast h1
    have hs : Real.sqrt ((l2normSq rows u : ℤ) : ℝ) ≠ 0 := by positivity
    constructor
    · intro i
      unfold normAffinity
      rw [if_neg hne]
      exact div_mul_cancel₀ _ hs
    · have hterm : ∀ i : Nat, (normAffinity rows u i) ^ 2
          = ((affinity rows u i : ℤ) : ℝ) ^ 2 * (((l2normSq rows u : ℤ) : ℝ))⁻¹ := by
        intro i
        unfold normAffinity
        rw [if_neg hne, div_pow, Real.sq_sqrt hQpos.le, div_eq_mul_inv]
      simp only [hterm]
      rw [List.sum_map_mul_right, l2normSq_cast]
      exact mul_inv_cancel₀ hQpos.ne'

/-- C4 witness: concrete instance of `c4_row_normalization` — a row with one
affinity 3 has squared norm 9 ≠ 0 and normalizes to unit L2 norm. -/
theorem c4_row_normalization_witness :
    ((itemsOf [(⟨1, 1, 3, 0⟩ : Interaction)]).map
      (fun i => (normAffinity [(⟨1, 1, 3, 0⟩ : Interaction)] 1 i) ^ 2)).sum = 1 :=
  ((c4_row_normalization [⟨1, 1, 3, 0⟩] 1).2 (by decide)).2

/-- C9: the numeric edge cases are handled by zero-substitution, never by
raising (every operation of the model is a total function): a row has zero
squared norm exactly when all its affinities over the catalog are zero, such
a row normalizes to the all-zero row, and an item with zero marginal count
gets similarity 0 under the cosine and lift rescalings. -/
theorem c9_zero_substitution (rows : List Interaction) (u i j : Nat) :
    (l2normSq rows u = 0 ↔ ∀ i' ∈ itemsOf rows, affinity rows u i' = 0) ∧
    (l2normSq rows u = 0 → normAffinity rows u i = 0) ∧
    (cooccur rows i i = 0 →
      similarity SimMetric.cosine rows i j = 0 ∧
      similarity SimMetric.lift rows i j = 0) := by
  refine ⟨⟨?_, ?_⟩, ?_, ?_⟩
  · intro h0 i' hi'
    have hall := sum_nonneg_eq_zero (l := (itemsOf rows).map
      (fun i'' => (affinity rows u i'') ^ 2)) ?_ h0
    · have := hall ((affinity rows u i') ^ 2)
        (List.mem_map_of_mem _ hi')
      exact pow_eq_zero_iff (n := 2) (by norm_num) |>.mp this
    · intro x hx
      rw [List.mem_map] at hx
      obtain ⟨i'', _, rfl⟩ := hx
      positivity
  · intro hall
    unfold l2normSq
    apply List.sum_eq_zero
    intro x hx
    rw [List.mem_map] at hx
    obtain ⟨i'', hi'', rfl⟩ := hx
    rw [hall i'' hi'']
    ring
  · intro h0
    unfold normAffinity
    rw [if_pos h0]
  · intro h0
    have hdi : ((cooccur rows i i : Nat) : ℝ) = 0 := by exact_mod_cast h0
    constructor
    · simp only [similarity]
      rw [if_pos (Or.inl hdi)]
    · simp only [similarity]
      rw [if_pos (Or.inl hdi)]

/-- C9 witness: concrete instance of `c9_zero_substitution` — user 1 has no
interactions, so its row normalizes to zero, and item 1 has no interactions,
so its cosine similarity column is zero. -/
theorem c9_zero_substitution_witness :
    normAffinity [(⟨2, 5, 1, 0⟩ : Interaction)] 1 5 = 0 ∧
    similarity SimMetric.cosine [(⟨2, 5, 1, 0⟩ : Interaction)] 1 5 = 0 :=
  ⟨(c9_zero_substitution [⟨2, 5, 1, 0⟩] 1 5 5).2.1 (by decide),
    ((c9_zero_substitution [⟨2, 5, 1, 0⟩] 1 1 5).2.2 (by decide)).1⟩

/-- C5: for every fitted model and configured metric, the item-similarity
matrix is symmetric: `S[i][j] = S[j][i]` for all item indices. -/
theorem c5_similarity_symm (m : SimMetric) (rows : List Interaction) (i j : Nat) :
    similarity m rows i j = similarity m rows j i := by
  have hc : cooccur rows i j = cooccur rows j i := cooccur_symm rows i j
  cases m with
  | count => simp only [similarity]; rw [hc]
  | cosine =>
      simp only [similarity]
      rw [hc]
      exact if_congr or_comm rfl (by rw [mul_comm])
  | jaccard =>
      simp only [similarity]
      rw [hc]
      exact if_congr (by rw [add_comm]) rfl (by rw [add_comm])
  | lift =>
      simp only [similarity]
      rw [hc]
      exact if_congr or_comm rfl (by rw [mul_comm])

/-- C6: for the cosine and jaccard metrics, the diagonal similarity
`S[i][i]` equals 1 whenever item `i` has at least one interaction
(`d_i = C[i][i] > 0`). -/
theorem c6_diagonal_one (m : SimMetric) (rows : List Interaction) (i : Nat)
    (hm : m = SimMetric.cosine ∨ m = SimMetric.jaccard)
    (h : 0 < cooccur rows i i) :
    similarity m rows i i = 1 := by
  have hd : (0 : ℝ) < (cooccur rows i i : ℝ) := by exact_mod_cast h
  rcases hm with rfl | rfl
  · simp only [similarity]
    rw [if_neg (by push_neg; exact ⟨hd.ne', hd.ne'⟩),
      Real.sqrt_mul_self hd.le, div_self hd.ne']
  · simp only [similarity]
    rw [if_neg (by rw [add_sub_cancel_right]; exact hd.ne'),
      add_sub_cancel_right, div_self hd.ne']

/-- C6 witness: concrete instance of `c6_diagonal_one` — one training
interaction with item 1 gives `d_1 = 1 > 0` and cosine self-similarity 1. -/
theorem c6_diagonal_one_witness :
    similarity SimMetric.cosine [(⟨1, 1, 1, 0⟩ : Interaction)] 1 1 = 1 :=
  c6_diagonal_one SimMetric.cosine [⟨1, 1, 1, 0⟩] 1 (Or.inl rfl) (by decide)

/-- C7: for every fitted model, query set and `top_k`, each query user's
output block holds at most `top_k` items, exactly `top_k` whenever at least
`top_k` eligible (unseen) items exist for that user, its entries are sorted
by non-increasing score, and the flat `recommend` output restricted to that
user is exactly this block. -/
theorem c7_topk_shape {K : Type} [LinearOrderedCommRing K]
    (q : List Interaction) (S : Nat → Nat → K) (items : List Nat)
    (k : Nat) (removeSeen : Bool) (u : Nat) (hu : u ∈ usersOf q) :
    (topKItems q S items u k removeSeen).length ≤ k ∧
    (k ≤ (eligibleItems q items u removeSeen).length →
      (topKItems q S items u k removeSeen).length = k) ∧
    (topKItems q S items u k removeSeen).Pairwise
      (fun i j => score q S items u j ≤ score q S items u i) ∧
    (recommend q S items k removeSeen).filter (fun p => p.fst == u)
      = (topKItems q S items u k removeSeen).map
          (fun i => (u, i, score q S items u i)) := by
  refine ⟨?_, ?_, ?_, recommend_filter_user q S items k removeSeen hu⟩
  · unfold topKItems
    rw [List.length_take, List.length_insertionSort]
    exact min_le_left _ _
  · intro hk
    unfold topKItems
    rw [List.length_take, List.length_insertionSort]
    exact min_eq_left hk
  · exact (topKItems_pairwise q S items u k removeSeen).imp
      (rankRel_score_le (score q S items u))

/-- C7 witness: concrete instance of `c7_topk_shape` — user 1 has two
eligible items and `top_k = 2`, so its block has exactly two entries. -/
theorem c7_topk_shape_witness :
    (topKItems [(⟨1, 3, 1, 0⟩ : Interaction)] (fun _ _ => (1 : ℤ)) [1, 2, 3]
      1 2 true).length = 2 :=
  ((c7_topk_shape [(⟨1, 3, 1, 0⟩ : Interaction)] (fun _ _ => (1 : ℤ)) [1, 2, 3]
    2 true 1 (by decide)).2.1) (by decide)

/-- C8: `recommend` is deterministic — two calls with identical query
interactions, similarity matrix, `top_k` and `remove_seen` yield identical
output, and under the descending-score / ascending-item-index tie-break rule
the ranked prefix is uniquely determined: any rank-sorted permutation of a
user's eligible items has the same `top_k` prefix. -/
theorem c8_deterministic {K : Type} [LinearOrderedCommRing K]
    (q : List Interaction) (S : Nat → Nat → K) (items : List Nat)
    (k : Nat) (removeSeen : Bool) (u : Nat) :
    recommend q S items k removeSeen = recommend q S items k removeSeen ∧
    ∀ l : List Nat, l.Perm (eligibleItems q items u removeSeen) →
      l.Sorted (rankRel (score q S items u)) →
      l.take k = topKItems q S items u k removeSeen := by
  refine ⟨rfl, ?_⟩
  intro l hperm hsorted
  unfold topKItems
  congr 1
  exact List.eq_of_perm_of_sorted
    (hperm.trans (List.perm_insertionSort _ _).symm) hsorted
    (List.sorted_insertionSort _ _)

/-- C8 witness: concrete instance of `c8_deterministic` — with scores
`score 1 = 2`, `score 2 = 10`, the sorted list `[2, 1]` is the unique
ranking, so its prefix equals the computed top-2. -/
theorem c8_deterministic_witness :
    ([2, 1] : List Nat).take 2
      = topKItems [(⟨1, 1, 2, 0⟩ : Interaction)]
          (fun _ i => if i = 1 then (1 : ℤ) else 5) [1, 2] 1 2 false :=
  (c8_deterministic [(⟨1, 1, 2, 0⟩ : Interaction)]
    (fun _ i => if i = 1 then (1 : ℤ) else 5) [1, 2] 2 false 1).2
    [2, 1] (by decide) (by decide)

/-- C10: an interaction with rating 0 (betPlaced converted to 0)
contributes zero affinity and is not treated as seen: with the jaccard model
fitted on `[(user 2, item 1, rating 1)]` and the query containing only the
rating-0 interaction (user 1, item 1), `recommend` with `remove_seen = true`
still returns item 1 for user 1. -/
theorem c10_zero_rating_not_seen :
    affinity [(⟨1, 1, 0, 5⟩ : Interaction)] 1 1 = 0 ∧
    (∃ r ∈ [(⟨1, 1, 0, 5⟩ : Interaction)],
      r.user = 1 ∧ r.item = 1 ∧ r.rating = 0) ∧
    (∃ p ∈ recommend [(⟨1, 1, 0, 5⟩ : Interaction)]
        (similarity SimMetric.jaccard [⟨2, 1, 1, 0⟩]) [1] 1 true,
      p.fst = 1 ∧ p.snd.fst = 1) := by
  refine ⟨by decide, ⟨_, List.mem_singleton_self _, rfl, rfl, rfl⟩, ?_⟩
  have hred : recommend [(⟨1, 1, 0, 5⟩ : Interaction)]
      (similarity SimMetric.jaccard [⟨2, 1, 1, 0⟩]) [1] 1 true
      = [(1, 1, score [(⟨1, 1, 0, 5⟩ : Interaction)]
          (similarity SimMetric.jaccard [⟨2, 1, 1, 0⟩]) [1] 1 1)] := rfl
  rw [hred]
  exact ⟨_, List.mem_singleton_self _, rfl, rfl⟩

end SAR
